import Mathlib

/-!
Verification development for the yoopass-api secret-sharing service.

The embedding follows the Go sources:
* `internal/tools/cipher` — hex-keyed AES-GCM `Encode` / `Decode` /
  `GenerateRandomHexKey`;
* `internal/http-server/handlers/fetch` — the retrieve handler `fetch.New`;
* `internal/http-server/handlers/save` — the create handler `save.New`.

Go byte slices are `List Nat` (well-formed bytes are `< 256`), Go strings
are Lean `String` (or `List Char` at the cipher boundary, matching Go's
per-byte hex handling), and fallible Go functions returning `(T, error)`
become `Except String T` carrying the source's error message. Randomness
(key bytes, nonces, identifiers) is passed in explicitly as arguments.
-/

namespace Yoopass

/-- A byte, modelled as a natural number; well-formed bytes are `< 256`. -/
abbrev Byte := Nat

/-! ### encoding/hex (Go standard library, as used by the cipher package) -/

/-- The lowercase hex alphabet used by Go's `hex.EncodeToString`. -/
def hexDigit (n : Nat) : Char := "0123456789abcdef".data.getD n '0'

/-- `hex.EncodeToString`: every byte becomes two lowercase hex characters
(high nibble first). -/
def hexEncode : List Byte → List Char
  | [] => []
  | b :: rest => hexDigit (b / 16) :: hexDigit (b % 16) :: hexEncode rest

/-- Value of a single hex character (Go's `fromHexChar`): digits,
lowercase and uppercase letters are accepted, everything else fails. -/
def fromHexChar (c : Char) : Option Nat :=
  if '0' ≤ c ∧ c ≤ '9' then some (c.toNat - '0'.toNat)
  else if 'a' ≤ c ∧ c ≤ 'f' then some (c.toNat - 'a'.toNat + 10)
  else if 'A' ≤ c ∧ c ≤ 'F' then some (c.toNat - 'A'.toNat + 10)
  else none

/-- `hex.DecodeString`: decodes pairs of hex characters into bytes; fails
on an odd-length input or on any non-hex character. -/
def hexDecode : List Char → Option (List Byte)
  | [] => some []
  | [_] => none
  | a :: b :: rest =>
    match fromHexChar a, fromHexChar b, hexDecode rest with
    | some ha, some hb, some tl => some ((ha * 16 + hb) :: tl)
    | _, _, _ => none

/-! ### AES-GCM primitive

`crypto/aes` and `crypto/cipher` are Go standard-library code, not part of
this repository, so the AEAD itself is modelled from the spec. -/

/-- `aes.NewCipher` succeeds exactly when the key is 16, 24 or 32 bytes
(AES-128/192/256). -/
def aesKeyOk (keyBytes : List Byte) : Bool :=
  keyBytes.length = 16 || keyBytes.length = 24 || keyBytes.length = 32

/-- GCM's fixed nonce size (`aesGCM.NonceSize()`), in bytes. -/
def nonceSize : Nat := 12

/-- GCM's authentication-tag size, in bytes. -/
def tagSize : Nat := 16

/-- Modelled from the spec: the keystream of the authenticated cipher
(`crypto/cipher`'s GCM, outside the repository). A concrete executable
byte stream determined by the key, the nonce and the position; the
cipher masks each plaintext byte with the keystream byte at its index. -/
def gcmKeystream (key nonce : List Byte) (i : Nat) : Byte :=
  (key.foldl (fun a b => a * 31 + b) 7 +
   nonce.foldl (fun a b => a * 37 + b) 11 + i * 13) % 256

/-- XOR-mask a byte sequence with the keystream starting at position `i`;
applying the mask twice recovers the original bytes. -/
def maskBytes (key nonce : List Byte) (i : Nat) : List Byte → List Byte
  | [] => []
  | b :: rest => (b ^^^ gcmKeystream key nonce i) :: maskBytes key nonce (i + 1) rest

/-- Modelled from the spec: the 16-byte authentication tag of the AEAD,
bound to the key, the nonce and the ciphertext, so that verification
under a different key or over altered data fails. -/
def gcmTag (key nonce ct : List Byte) : List Byte :=
  (List.range tagSize).map (fun i =>
    (key.foldl (fun a b => a * 41 + b) 3 +
     nonce.foldl (fun a b => a * 43 + b) 5 +
     ct.foldl (fun a b => a * 47 + b) 9 + i * 17) % 256)

/-- Modelled from the spec: GCM `Seal` — authenticated encryption of the
plaintext under `key` and `nonce`, returning ciphertext followed by the
authentication tag. -/
def gcmSeal (key nonce pt : List Byte) : List Byte :=
  let ct := maskBytes key nonce 0 pt
  ct ++ gcmTag key nonce ct

/-- Modelled from the spec: GCM `Open` — splits off the trailing
authentication tag, verifies it, and returns the plaintext only if
verification succeeds; fails on data not sealed under the same key and
nonce. -/
def gcmOpen (key nonce ct : List Byte) : Option (List Byte) :=
  if ct.length < tagSize then none
  else
    let body := ct.take (ct.length - tagSize)
    let tag := ct.drop (ct.length - tagSize)
    if tag = gcmTag key nonce body then some (maskBytes key nonce 0 body)
    else none

/-! ### internal/tools/cipher -/

/-- `cipher.Encode(object, key)`: hex-decodes the key, builds the AES-GCM
cipher, and seals `object` under the freshly generated `nonce`, returning
the nonce prepended to ciphertext‖tag. The nonce is drawn from the random
source by the Go code; the model receives it as an argument. -/
def Encode (object : List Byte) (key : List Char) (nonce : List Byte) :
    Except String (List Byte) :=
  match hexDecode key with
  | none => .error "encoding hex invalid byte"
  | some keyBytes =>
    if aesKeyOk keyBytes then
      .ok (nonce ++ gcmSeal keyBytes nonce object)
    else .error "could not create cipher block"

/-- `cipher.Decode(cipherObject, key)`: hex-decodes the key, builds the
AES-GCM cipher, rejects blobs shorter than one nonce, splits the first
`nonceSize` bytes off as the nonce, and opens the remainder. -/
def Decode (cipherObject : List Byte) (key : List Char) :
    Except String (List Byte) :=
  match hexDecode key with
  | none => .error "invalid hex key"
  | some keyBytes =>
    if aesKeyOk keyBytes then
      if cipherObject.length < nonceSize then .error "ciphertext too short"
      else
        match gcmOpen keyBytes (cipherObject.take nonceSize)
            (cipherObject.drop nonceSize) with
        | some plaintext => .ok plaintext
        | none => .error "could not decrypt"
    else .error "could not create cipher block"

/-- `cipher.GenerateRandomHexKey()`: reads 16 random bytes and returns
their lowercase hex encoding. The random bytes are an argument here. -/
def GenerateRandomHexKey (randomBytes : List Byte) : List Char :=
  hexEncode randomBytes

/-! ### Secret record and serialization

The `dto` package is not among the sources; only its use sites are. Its
record and JSON (de)serialization are therefore modelled from the spec. -/

/-- Modelled from the spec: the Secret Record — "the plaintext-side data
model (message content + one-time flag) serialized before encryption"
(the `dto.Secret` struct is not in the sources). The message is the Go
string's bytes. -/
structure Secret where
  message : List Byte
  one_time : Bool
deriving DecidableEq, Repr

/-- Modelled from the spec: `json.Marshal` of a Secret Record — an
injective byte serialization of `(message, one_time)` (the concrete JSON
layout is not in the sources; only injectivity and invertibility are
used). -/
def serializeSecret (s : Secret) : List Byte :=
  (if s.one_time then 1 else 0) :: s.message

/-- Modelled from the spec: `json.Unmarshal` into a Secret Record — the
partial inverse of `serializeSecret`, failing on malformed content. -/
def deserializeSecret : List Byte → Option Secret
  | [] => none
  | flag :: rest =>
    if flag = 1 then some ⟨rest, true⟩
    else if flag = 0 then some ⟨rest, false⟩
    else none

/-! ### HTTP responses and the store-call trace -/

/-- The JSON bodies the two handlers can render (`response.Response`,
`fetch.Response`, `save.Response`, and the validation-error map). -/
inductive RespBody where
  /-- `resp.Error(msg)` — status ERROR with the given message. -/
  | errorResp (msg : String)
  /-- `fetch.Response{resp.OK(), message}` — successful retrieval. -/
  | okMessage (message : List Byte)
  /-- `save.Response{resp.OK(), aliasStr, key}` — successful creation. -/
  | okSave (aliasStr : String) (key : String)
  /-- `resp.ValidationErrorResponse(errors)` — field/message pairs. -/
  | validationResp (errors : List (String × String))
deriving DecidableEq, Repr

/-- An HTTP status code together with the rendered JSON body. -/
structure HttpResponse where
  status : Nat
  body : RespBody
deriving DecidableEq, Repr

/-- One call made against the secret store by the fetch handler. -/
inductive StoreCall where
  | fetchCall (aliasStr : String)
  | deleteCall (aliasStr : String)
deriving DecidableEq, Repr

/-- Result of `SecretFetcher.Fetch`: a Go `([]byte, error)` pair.
`blob = none` models a nil slice (the not-found signal); `err = some msg`
models a non-nil error. -/
structure FetchResult where
  blob : Option (List Byte)
  err : Option String
deriving DecidableEq, Repr

/-! ### internal/http-server/handlers/fetch -/

/-- `fetch.New`'s request handling, for a non-nil fetcher: checks the
`aliasStr` and `key` path parameters, fetches the ciphertext, decodes it,
deserializes the Secret Record, deletes one-time secrets, and renders the
message. Returns the response together with the store calls it made, in
order. `store` is the outcome `Fetch(aliasStr)` would produce and
`deleteErr` the outcome `Delete(aliasStr)` would produce. -/
def fetchHandler (aliasStr key : String) (store : FetchResult)
    (deleteErr : Option String) : HttpResponse × List StoreCall :=
  if aliasStr = "" then (⟨400, .errorResp "Alias parameter is missing"⟩, [])
  else if key = "" then (⟨400, .errorResp "Key parameter is missing"⟩, [])
  else
    match store.err with
    | some e => (⟨500, .errorResp e⟩, [.fetchCall aliasStr])
    | none =>
      match store.blob with
      | none => (⟨404, .errorResp "Secret not found"⟩, [.fetchCall aliasStr])
      | some cipherObject =>
        match Decode cipherObject key.data with
        | .error _ =>
          (⟨500, .errorResp "Failed to decode secret"⟩, [.fetchCall aliasStr])
        | .ok object =>
          match deserializeSecret object with
          | none =>
            (⟨500, .errorResp "Secret unmarshalling failed"⟩, [.fetchCall aliasStr])
          | some dest =>
            if dest.one_time then
              match deleteErr with
              | some _ =>
                (⟨500, .errorResp "Failed to delete secret"⟩,
                 [.fetchCall aliasStr, .deleteCall aliasStr])
              | none =>
                (⟨200, .okMessage dest.message⟩,
                 [.fetchCall aliasStr, .deleteCall aliasStr])
            else (⟨200, .okMessage dest.message⟩, [.fetchCall aliasStr])

/-! ### internal/http-server/handlers/save -/

/-- `save.Request` after JSON decoding: `{message, expiration, one_time}`.
`Expiration` is a Go `int`, so it is an `Int` here. -/
structure SaveRequest where
  message : List Byte
  expiration : Int
  one_time : Bool
deriving DecidableEq, Repr

/-- `validate.Struct` on `save.Request`: the only validation tag is
`required` on `Message`, which fails exactly when the message is its zero
value (the empty string); `Expiration` and `OneTime` carry no tags.
Returns the field/message pairs rendered on failure. -/
def validateRequest (req : SaveRequest) : List (String × String) :=
  if req.message = [] then [("message", "This field is required")] else []

/-- Two's-complement wrap of an integer into the signed 64-bit range,
the semantics of Go `int64` arithmetic. -/
def wrapInt64 (n : Int) : Int := (n + 2 ^ 63) % 2 ^ 64 - 2 ^ 63

/-- `time.Hour` in nanoseconds, the unit of Go's `time.Duration`. -/
def nanosPerHour : Int := 3600000000000

/-- One `SecretSaver.Set(aliasStr, blob, ttl)` call; `ttlNanos` is the
`time.Duration(req.Expiration) * time.Hour` argument — a `time.Duration`
is an `int64` count of nanoseconds, and the multiplication wraps in
`int64`. -/
structure SetCall where
  aliasStr : String
  blob : List Byte
  ttlNanos : Int
deriving DecidableEq, Repr

/-- `save.New`'s request handling after JSON decoding, for a non-nil
saver: validates the request, generates the aliasStr (a fresh UUID) and the
key (16 fresh random bytes, hex-encoded), serializes and encrypts the
Secret Record, and persists it via `Set` with a TTL of
`time.Duration(req.Expiration) * time.Hour` — the product of the
requested hours and `nanosPerHour`, wrapped in `int64` as Go computes
it. Randomness (`aliasStr`, `keyBytes`, `nonce`) is passed in; `setErr`
is the outcome `Set` would produce. Returns the response together with
the `Set` calls made. -/
def saveHandler (req : SaveRequest) (aliasStr : String) (keyBytes : List Byte)
    (nonce : List Byte) (setErr : Option String) :
    HttpResponse × List SetCall :=
  match validateRequest req with
  | e :: rest => (⟨400, .validationResp (e :: rest)⟩, [])
  | [] =>
    let key := GenerateRandomHexKey keyBytes
    let secret : Secret := ⟨req.message, req.one_time⟩
    let object := serializeSecret secret
    match Encode object key nonce with
    | .error _ => (⟨500, .errorResp "Failed to encode secret"⟩, [])
    | .ok cipherObject =>
      match setErr with
      | some _ =>
        (⟨500, .errorResp "Url already exists"⟩,
         [⟨aliasStr, cipherObject, wrapInt64 (req.expiration * nanosPerHour)⟩])
      | none =>
        (⟨200, .okSave aliasStr ⟨key⟩⟩,
         [⟨aliasStr, cipherObject, wrapInt64 (req.expiration * nanosPerHour)⟩])

/-- Decidable equality for `Except`, used to evaluate cipher results on
concrete inputs. -/
instance {ε α : Type} [DecidableEq ε] [DecidableEq α] :
    DecidableEq (Except ε α) := fun a b =>
  match a, b with
  | .ok x, .ok y =>
    if h : x = y then isTrue (by rw [h])
    else isFalse (by intro hc; cases hc; exact h rfl)
  | .error x, .error y =>
    if h : x = y then isTrue (by rw [h])
    else isFalse (by intro hc; cases hc; exact h rfl)
  | .ok _, .error _ => isFalse (by intro hc; cases hc)
  | .error _, .ok _ => isFalse (by intro hc; cases hc)

/-- The 16 bytes of the test-suite key
`"46da5d3577209271242b42882a034c3d"`. -/
def testKeyBytes : List Byte :=
  [70, 218, 93, 53, 119, 32, 146, 113, 36, 43, 66, 136, 42, 3, 76, 61]

/-- A concrete ciphertext blob: the secret `{message: "hi", one_time:
false}` sealed under the test key with a fixed nonce. -/
def storedBlob : List Byte :=
  match Encode (serializeSecret ⟨[104, 105], false⟩)
      "46da5d3577209271242b42882a034c3d".data (List.replicate 12 5) with
  | .ok blob => blob
  | .error _ => []

/-- A concrete ciphertext blob of a one-time secret: `{message: "hi",
one_time: true}` sealed under the test key with a fixed nonce. -/
def storedOneTimeBlob : List Byte :=
  match Encode (serializeSecret ⟨[104, 105], true⟩)
      "46da5d3577209271242b42882a034c3d".data (List.replicate 12 5) with
  | .ok blob => blob
  | .error _ => []

/-! ### Helper lemmas -/

/-- A hex digit character always lies in the hex alphabet. -/
theorem hexDigit_mem (n : Nat) : hexDigit n ∈ "0123456789abcdef".data := by
  unfold hexDigit
  by_cases h : n < "0123456789abcdef".data.length
  · rw [List.getD_eq_getElem _ _ h]
    exact List.getElem_mem h
  · rw [List.getD_eq_default _ _ (Nat.le_of_not_lt h)]
    decide

/-- Decoding a hex digit of a nibble value recovers the nibble. -/
theorem fromHexChar_hexDigit {n : Nat} (h : n < 16) :
    fromHexChar (hexDigit n) = some n := by
  interval_cases n <;> decide

/-- Hex encoding doubles the length. -/
theorem hexEncode_length (bs : List Byte) :
    (hexEncode bs).length = 2 * bs.length := by
  induction bs with
  | nil => rfl
  | cons b rest ih => simp [hexEncode, ih]; ring

/-- Every character of a hex encoding is in the hex alphabet. -/
theorem hexEncode_mem (bs : List Byte) :
    ∀ c ∈ hexEncode bs, c ∈ "0123456789abcdef".data := by
  induction bs with
  | nil => intro c hc; cases hc
  | cons b rest ih =>
    intro c hc
    rcases hc with _ | ⟨_, hc⟩
    · exact hexDigit_mem _
    · rcases hc with _ | ⟨_, hc⟩
      · exact hexDigit_mem _
      · exact ih c hc

/-- Hex decoding inverts hex encoding on well-formed bytes. -/
theorem hexDecode_hexEncode (bs : List Byte) (h : ∀ b ∈ bs, b < 256) :
    hexDecode (hexEncode bs) = some bs := by
  induction bs with
  | nil => rfl
  | cons b rest ih =>
    have hb : b < 256 := h b (List.mem_cons_self b rest)
    have hhi : b / 16 < 16 := Nat.div_lt_of_lt_mul hb
    have hlo : b % 16 < 16 := Nat.mod_lt _ (by norm_num)
    have hrest := ih (fun x hx => h x (List.mem_cons_of_mem b hx))
    simp only [hexEncode, hexDecode, fromHexChar_hexDigit hhi,
      fromHexChar_hexDigit hlo, hrest]
    have hsplit : b / 16 * 16 + b % 16 = b := by
      rw [Nat.mul_comm, Nat.div_add_mod]
    rw [hsplit]

/-- Masking has the original length. -/
theorem maskBytes_length (key nonce : List Byte) (i : Nat) (bs : List Byte) :
    (maskBytes key nonce i bs).length = bs.length := by
  induction bs generalizing i with
  | nil => rfl
  | cons b rest ih => simp [maskBytes, ih]

/-- Masking twice with the same key, nonce and offset is the identity. -/
theorem maskBytes_maskBytes (key nonce : List Byte) (i : Nat) (bs : List Byte) :
    maskBytes key nonce i (maskBytes key nonce i bs) = bs := by
  induction bs generalizing i with
  | nil => rfl
  | cons b rest ih =>
    simp [maskBytes, ih, Nat.xor_cancel_right]

/-- The authentication tag is 16 bytes. -/
theorem gcmTag_length (key nonce ct : List Byte) :
    (gcmTag key nonce ct).length = tagSize := by
  simp [gcmTag]

/-- A sealed blob is the plaintext length plus the tag. -/
theorem gcmSeal_length (key nonce pt : List Byte) :
    (gcmSeal key nonce pt).length = pt.length + tagSize := by
  simp [gcmSeal, maskBytes_length, gcmTag_length]

/-- Opening a blob sealed under the same key and nonce returns the
plaintext. -/
theorem gcmOpen_gcmSeal (key nonce pt : List Byte) :
    gcmOpen key nonce (gcmSeal key nonce pt) = some pt := by
  have hlen := gcmSeal_length key nonce pt
  have hct := maskBytes_length key nonce 0 pt
  unfold gcmOpen
  rw [hlen]
  have hge : ¬ pt.length + tagSize < tagSize := by omega
  simp only [hge, if_false]
  have hdrop : pt.length + tagSize - tagSize = pt.length := by omega
  unfold gcmSeal
  rw [hdrop, ← hct]
  rw [List.take_left, List.drop_left]
  rw [if_pos rfl, maskBytes_maskBytes]

/-- Deserialization inverts serialization of the Secret Record. -/
theorem deserializeSecret_serializeSecret (s : Secret) :
    deserializeSecret (serializeSecret s) = some s := by
  cases s with
  | mk message one_time =>
    cases one_time <;> simp [serializeSecret, deserializeSecret]

/-- Decoding a blob produced by `Encode` under the same key recovers the
plaintext: the cipher-level round trip. -/
theorem Decode_Encode (object : List Byte) (key : List Char)
    (nonce : List Byte) (keyBytes : List Byte)
    (hkey : hexDecode key = some keyBytes) (hok : aesKeyOk keyBytes = true)
    (hn : nonce.length = nonceSize) :
    ∀ sealed, Encode object key nonce = .ok sealed →
      Decode sealed key = .ok object := by
  intro sealed hseal
  unfold Encode at hseal
  rw [hkey] at hseal
  simp only [hok, if_true] at hseal
  cases hseal
  unfold Decode
  rw [hkey]
  simp only [hok, if_true]
  have hlen : (nonce ++ gcmSeal keyBytes nonce object).length =
      nonceSize + (object.length + tagSize) := by
    simp [gcmSeal_length, hn]
  have hnotshort : ¬ (nonce ++ gcmSeal keyBytes nonce object).length < nonceSize := by
    omega
  simp only [hnotshort, if_false]
  have htake : (nonce ++ gcmSeal keyBytes nonce object).take nonceSize = nonce := by
    rw [← hn]; exact List.take_left _ _
  have hdrop : (nonce ++ gcmSeal keyBytes nonce object).drop nonceSize =
      gcmSeal keyBytes nonce object := by
    rw [← hn]; exact List.drop_left _ _
  rw [htake, hdrop, gcmOpen_gcmSeal]

/-- `aesKeyOk` holds exactly for AES-128/192/256 key lengths. -/
theorem aesKeyOk_iff (keyBytes : List Byte) :
    aesKeyOk keyBytes = true ↔
      (keyBytes.length = 16 ∨ keyBytes.length = 24 ∨ keyBytes.length = 32) := by
  simp [aesKeyOk, or_assoc]

/-- `wrapInt64` is the identity on values already in the `int64` range. -/
theorem wrapInt64_eq_self (n : Int) (hlo : -(2 ^ 63) ≤ n)
    (hhi : n < 2 ^ 63) : wrapInt64 n = n := by
  unfold wrapInt64
  omega

/-- A hex-encoded 16-byte key is a nonempty string. -/
theorem hexKeyString_ne_empty (keyBytes : List Byte)
    (hlen : keyBytes.length = 16) :
    (⟨hexEncode keyBytes⟩ : String) ≠ "" := by
  intro h
  have hdata : hexEncode keyBytes = [] := by
    have := congrArg String.data h
    simpa using this
  have := hexEncode_length keyBytes
  rw [hdata, hlen] at this
  simp at this

/-- The successful path of `save.New`: a non-empty message and a
well-formed key produce an OK response carrying the alias and the hex
key, and exactly one `Set` call holding the sealed blob and the
requested TTL. -/
theorem saveHandler_ok (msg : List Byte) (e : Int) (ot : Bool) (a : String)
    (kb nonce : List Byte) (hmsg : msg ≠ [])
    (hok : aesKeyOk kb = true) (hrange : ∀ b ∈ kb, b < 256) :
    saveHandler ⟨msg, e, ot⟩ a kb nonce none =
      (⟨200, .okSave a ⟨hexEncode kb⟩⟩,
       [⟨a, nonce ++ gcmSeal kb nonce (serializeSecret ⟨msg, ot⟩),
         wrapInt64 (e * nanosPerHour)⟩]) := by
  simp [saveHandler, validateRequest, GenerateRandomHexKey, Encode, hmsg,
    hok, hexDecode_hexEncode kb hrange]

/-- The decode-and-deserialize path of `fetch.New`: once the parameters
are present, the store returned a blob, and decode and deserialization
succeed, the handler's outcome is decided by the one-time flag and the
delete result. -/
theorem fetchHandler_decodeOk (a k : String) (blob object : List Byte)
    (dest : Secret) (deleteErr : Option String)
    (ha : ¬ a = "") (hk : ¬ k = "")
    (hdec : Decode blob k.data = .ok object)
    (hdes : deserializeSecret object = some dest) :
    fetchHandler a k ⟨some blob, none⟩ deleteErr =
      if dest.one_time then
        match deleteErr with
        | some _ =>
          (⟨500, .errorResp "Failed to delete secret"⟩,
           [.fetchCall a, .deleteCall a])
        | none =>
          (⟨200, .okMessage dest.message⟩, [.fetchCall a, .deleteCall a])
      else (⟨200, .okMessage dest.message⟩, [.fetchCall a]) := by
  unfold fetchHandler
  simp only [if_neg ha, if_neg hk, hdec, hdes]

/-! ### Claims -/

/-- C1: Round-trip correctness — for every valid create input (non-empty
message, ttl, one-time flag), Create returns the identifier and the hex
key, stores one sealed blob, and a Retrieve with that identifier and key
before expiry (for one-time secrets, as the first retrieval, with the
delete succeeding) returns exactly the original message unchanged. -/
theorem create_retrieve_roundtrip
    (msg : List Byte) (expiration : Int) (ot : Bool) (a : String)
    (keyBytes nonce : List Byte)
    (hmsg : msg ≠ []) (ha : a ≠ "")
    (hkLen : keyBytes.length = 16) (hkRange : ∀ b ∈ keyBytes, b < 256)
    (hnLen : nonce.length = nonceSize) :
    ∃ blob,
      saveHandler ⟨msg, expiration, ot⟩ a keyBytes nonce none =
        (⟨200, .okSave a ⟨GenerateRandomHexKey keyBytes⟩⟩,
         [⟨a, blob, wrapInt64 (expiration * nanosPerHour)⟩]) ∧
      fetchHandler a ⟨GenerateRandomHexKey keyBytes⟩ ⟨some blob, none⟩ none =
        (⟨200, .okMessage msg⟩,
         if ot then [.fetchCall a, .deleteCall a] else [.fetchCall a]) := by
  have hok : aesKeyOk keyBytes = true := by
    rw [aesKeyOk_iff]; exact Or.inl hkLen
  refine ⟨nonce ++ gcmSeal keyBytes nonce (serializeSecret ⟨msg, ot⟩), ?_, ?_⟩
  · exact saveHandler_ok msg expiration ot a keyBytes nonce hmsg hok hkRange
  · have hkstr := hexKeyString_ne_empty keyBytes hkLen
    have hdec : Decode
        (nonce ++ gcmSeal keyBytes nonce (serializeSecret ⟨msg, ot⟩))
        (String.data ⟨GenerateRandomHexKey keyBytes⟩) =
        .ok (serializeSecret ⟨msg, ot⟩) := by
      apply Decode_Encode (serializeSecret ⟨msg, ot⟩) (hexEncode keyBytes)
        nonce keyBytes (hexDecode_hexEncode keyBytes hkRange) hok hnLen
      unfold Encode
      rw [hexDecode_hexEncode keyBytes hkRange]
      simp [hok]
    rw [fetchHandler_decodeOk a ⟨GenerateRandomHexKey keyBytes⟩ _ _ ⟨msg, ot⟩
      none ha hkstr hdec (deserializeSecret_serializeSecret ⟨msg, ot⟩)]
    cases ot <;> simp

/-- Witness for C1 at a concrete one-time secret. -/
theorem create_retrieve_roundtrip_witness :
    ∃ blob,
      saveHandler ⟨[104, 105], 1, true⟩ "a" testKeyBytes
          (List.replicate 12 0) none =
        (⟨200, .okSave "a" ⟨GenerateRandomHexKey testKeyBytes⟩⟩,
         [⟨"a", blob, wrapInt64 (1 * nanosPerHour)⟩]) ∧
      fetchHandler "a" ⟨GenerateRandomHexKey testKeyBytes⟩
          ⟨some blob, none⟩ none =
        (⟨200, .okMessage [104, 105]⟩,
         if true then [.fetchCall "a", .deleteCall "a"]
         else [.fetchCall "a"]) :=
  create_retrieve_roundtrip [104, 105] 1 true "a" testKeyBytes
    (List.replicate 12 0) (by decide) (by decide) (by decide) (by decide)
    (by decide)

/-- C2 counterexample: retrieving a stored secret with a syntactically
valid but incorrect key does not return the not-found outcome: it
returns a 500 response with body "Failed to decode secret", while the
unknown-identifier case returns a 404 with "Secret not found" — two
distinct externally visible outcomes. -/
theorem wrong_key_outcome_differs_from_notfound :
    fetchHandler "a" "46da5d3577209271242b42882a034c3e"
        ⟨some storedBlob, none⟩ none =
      (⟨500, .errorResp "Failed to decode secret"⟩, [.fetchCall "a"]) ∧
    fetchHandler "a" "46da5d3577209271242b42882a034c3e" ⟨none, none⟩ none =
      (⟨404, .errorResp "Secret not found"⟩, [.fetchCall "a"]) ∧
    fetchHandler "a" "46da5d3577209271242b42882a034c3e"
        ⟨some storedBlob, none⟩ none ≠
      fetchHandler "a" "46da5d3577209271242b42882a034c3e"
        ⟨none, none⟩ none := by
  decide

/-- C2 (amended): for every stored secret and every key under which
decoding fails (in particular a syntactically valid but incorrect key),
the retrieve handler returns a 500 internal error with body
"Failed to decode secret" — a distinct externally visible outcome from
the 404 "Secret not found" returned for an unknown or expired
identifier; one-time and persistent secrets alike (the delete branch is
never reached). -/
theorem fetch_wrong_key_internal_error (a k : String) (blob : List Byte)
    (deleteErr : Option String) (e : String)
    (ha : a ≠ "") (hk : k ≠ "") (hdec : Decode blob k.data = .error e) :
    fetchHandler a k ⟨some blob, none⟩ deleteErr =
      (⟨500, .errorResp "Failed to decode secret"⟩, [.fetchCall a]) ∧
    (⟨500, .errorResp "Failed to decode secret"⟩ : HttpResponse) ≠
      ⟨404, .errorResp "Secret not found"⟩ := by
  constructor
  · unfold fetchHandler
    simp only [if_neg ha, if_neg hk, hdec]
  · decide

/-- Witness for C2's amended theorem at a concrete wrong key. -/
theorem fetch_wrong_key_internal_error_witness :
    fetchHandler "a" "46da5d3577209271242b42882a034c3e"
        ⟨some storedOneTimeBlob, none⟩ none =
      (⟨500, .errorResp "Failed to decode secret"⟩, [.fetchCall "a"]) ∧
    (⟨500, .errorResp "Failed to decode secret"⟩ : HttpResponse) ≠
      ⟨404, .errorResp "Secret not found"⟩ :=
  fetch_wrong_key_internal_error "a" "46da5d3577209271242b42882a034c3e"
    storedOneTimeBlob none "could not decrypt" (by decide) (by decide)
    (by decide)

/-- C3: on every retrieval of a secret whose one-time flag is true, the
store Delete is invoked (the call trace is Fetch then Delete); if the
Delete fails the retrieval fails with the 500 "Failed to delete secret"
error and the message is not returned, and only if Delete succeeds is
the message returned. -/
theorem fetch_one_time_delete (a k : String) (blob object m : List Byte)
    (deleteErr : Option String)
    (ha : a ≠ "") (hk : k ≠ "")
    (hdec : Decode blob k.data = .ok object)
    (hdes : deserializeSecret object = some ⟨m, true⟩) :
    (fetchHandler a k ⟨some blob, none⟩ deleteErr).2 =
      [.fetchCall a, .deleteCall a] ∧
    (∀ e, deleteErr = some e →
      fetchHandler a k ⟨some blob, none⟩ deleteErr =
        (⟨500, .errorResp "Failed to delete secret"⟩,
         [.fetchCall a, .deleteCall a])) ∧
    (deleteErr = none →
      fetchHandler a k ⟨some blob, none⟩ deleteErr =
        (⟨200, .okMessage m⟩, [.fetchCall a, .deleteCall a])) := by
  rw [fetchHandler_decodeOk a k blob object ⟨m, true⟩ deleteErr ha hk hdec hdes]
  cases deleteErr <;> simp

/-- Witness for C3 at a concrete one-time secret with a failing delete. -/
theorem fetch_one_time_delete_witness :
    (fetchHandler "a" "46da5d3577209271242b42882a034c3d"
        ⟨some storedOneTimeBlob, none⟩ (some "db error")).2 =
      [.fetchCall "a", .deleteCall "a"] ∧
    (∀ e, (some "db error" : Option String) = some e →
      fetchHandler "a" "46da5d3577209271242b42882a034c3d"
          ⟨some storedOneTimeBlob, none⟩ (some "db error") =
        (⟨500, .errorResp "Failed to delete secret"⟩,
         [.fetchCall "a", .deleteCall "a"])) ∧
    ((some "db error" : Option String) = none →
      fetchHandler "a" "46da5d3577209271242b42882a034c3d"
          ⟨some storedOneTimeBlob, none⟩ (some "db error") =
        (⟨200, .okMessage [104, 105]⟩, [.fetchCall "a", .deleteCall "a"])) :=
  fetch_one_time_delete "a" "46da5d3577209271242b42882a034c3d"
    storedOneTimeBlob [1, 104, 105] [104, 105] (some "db error")
    (by decide) (by decide) (by decide) (by decide)

/-- C4 counterexample: a create request with a negative expiration does
not fail validation — it succeeds (status 200) and the secret is
persisted: Set is invoked with a TTL of -1 hours (-3600000000000
nanoseconds). -/
theorem negative_expiration_persisted :
    (saveHandler ⟨[120], -1, false⟩ "a" testKeyBytes
        (List.replicate 12 0) none).1.status = 200 ∧
    (saveHandler ⟨[120], -1, false⟩ "a" testKeyBytes
        (List.replicate 12 0) none).2.map SetCall.ttlNanos =
      [-3600000000000] := by
  decide

/-- C4 (amended): the create handler applies no validation to the
expiration field: every request with a non-empty message — a negative
expiration included — passes validation, and the store Set is invoked
with the TTL Go computes, the int64-wrapped product of the requested
hours and one hour in nanoseconds; whenever that product fits in int64
(as it does at -1) the persisted TTL is exactly the requested, possibly
negative, duration. -/
theorem save_expiration_not_validated (msg : List Byte) (e : Int) (ot : Bool)
    (a : String) (kb nonce : List Byte) (setErr : Option String)
    (hmsg : msg ≠ []) (hok : aesKeyOk kb = true)
    (hrange : ∀ b ∈ kb, b < 256) :
    validateRequest ⟨msg, e, ot⟩ = [] ∧
    (saveHandler ⟨msg, e, ot⟩ a kb nonce setErr).2 =
      [⟨a, nonce ++ gcmSeal kb nonce (serializeSecret ⟨msg, ot⟩),
        wrapInt64 (e * nanosPerHour)⟩] ∧
    (-(2 ^ 63) ≤ e * nanosPerHour → e * nanosPerHour < 2 ^ 63 →
      wrapInt64 (e * nanosPerHour) = e * nanosPerHour) := by
  refine ⟨by simp [validateRequest, hmsg], ?_,
    fun hlo hhi => wrapInt64_eq_self _ hlo hhi⟩
  cases setErr with
  | none => rw [saveHandler_ok msg e ot a kb nonce hmsg hok hrange]
  | some se =>
    simp [saveHandler, validateRequest, GenerateRandomHexKey, Encode, hmsg,
      hok, hexDecode_hexEncode kb hrange]

/-- Witness for C4's amended theorem at expiration -1, whose product
with one hour fits in int64, so the persisted TTL is exactly -1 hours. -/
theorem save_expiration_not_validated_witness :
    validateRequest ⟨[120], -1, false⟩ = [] ∧
    (saveHandler ⟨[120], -1, false⟩ "a" testKeyBytes
        (List.replicate 12 0) none).2 =
      [⟨"a", List.replicate 12 0 ++ gcmSeal testKeyBytes
          (List.replicate 12 0) (serializeSecret ⟨[120], false⟩),
        wrapInt64 (-1 * nanosPerHour)⟩] ∧
    wrapInt64 ((-1 : Int) * nanosPerHour) = (-1 : Int) * nanosPerHour :=
  ⟨(save_expiration_not_validated [120] (-1) false "a" testKeyBytes
      (List.replicate 12 0) none (by decide) (by decide) (by decide)).1,
   (save_expiration_not_validated [120] (-1) false "a" testKeyBytes
      (List.replicate 12 0) none (by decide) (by decide) (by decide)).2.1,
   (save_expiration_not_validated [120] (-1) false "a" testKeyBytes
      (List.replicate 12 0) none (by decide) (by decide) (by decide)).2.2
     (by decide) (by decide)⟩

/-- C5 counterexample: when the store Fetch fails, the error detail
returned to the caller is the internal error message itself — two
different internal errors yield two different externally visible
responses, so the outcome is not generic and not independent of the
internal error's content. -/
theorem store_error_exposed :
    fetchHandler "a" "k" ⟨none, some "internal storage error"⟩ none =
      (⟨500, .errorResp "internal storage error"⟩, [.fetchCall "a"]) ∧
    fetchHandler "a" "k" ⟨none, some "redis: connection refused"⟩ none =
      (⟨500, .errorResp "redis: connection refused"⟩, [.fetchCall "a"]) ∧
    fetchHandler "a" "k" ⟨none, some "internal storage error"⟩ none ≠
      fetchHandler "a" "k" ⟨none, some "redis: connection refused"⟩ none := by
  decide

/-- C5 (amended): on every storage-backend failure during retrieval the
handler returns a 500 response whose body is exactly the internal store
error message, passed through verbatim to the caller. -/
theorem fetch_store_error_passthrough (a k : String) (b : Option (List Byte))
    (msg : String) (deleteErr : Option String) (ha : a ≠ "") (hk : k ≠ "") :
    fetchHandler a k ⟨b, some msg⟩ deleteErr =
      (⟨500, .errorResp msg⟩, [.fetchCall a]) := by
  unfold fetchHandler
  simp only [if_neg ha, if_neg hk]

/-- Witness for C5's amended theorem at a concrete store error. -/
theorem fetch_store_error_passthrough_witness :
    fetchHandler "a" "k" ⟨none, some "internal storage error"⟩ none =
      (⟨500, .errorResp "internal storage error"⟩, [.fetchCall "a"]) :=
  fetch_store_error_passthrough "a" "k" none "internal storage error" none
    (by decide) (by decide)

/-- C6: the create handler validates that the message is non-empty: an
empty message yields the 400 validation response naming the message
field and the store Set is never invoked, while every non-empty message
passes the validation. -/
theorem save_message_required (req : SaveRequest) (a : String)
    (kb nonce : List Byte) (setErr : Option String) :
    (req.message = [] →
      saveHandler req a kb nonce setErr =
        (⟨400, .validationResp [("message", "This field is required")]⟩,
         [])) ∧
    (req.message ≠ [] → validateRequest req = []) := by
  constructor
  · intro h
    simp [saveHandler, validateRequest, h]
  · intro h
    simp [validateRequest, h]

/-- Witness for C6 at an empty and a non-empty message. -/
theorem save_message_required_witness :
    saveHandler ⟨[], 1, false⟩ "a" testKeyBytes (List.replicate 12 0) none =
      (⟨400, .validationResp [("message", "This field is required")]⟩, []) ∧
    validateRequest ⟨[120], 1, false⟩ = [] :=
  ⟨(save_message_required ⟨[], 1, false⟩ "a" testKeyBytes
      (List.replicate 12 0) none).1 rfl,
   (save_message_required ⟨[120], 1, false⟩ "a" testKeyBytes
      (List.replicate 12 0) none).2 (by decide)⟩

/-- C7 counterexample: for a key that is not valid hex and a blob shorter
than one nonce length, Decode fails with the key error "invalid hex key",
not with the Truncated ("ciphertext too short") error — the key check
precedes the length guard, so the claim's "for every key" fails. -/
theorem short_blob_invalid_key_error :
    Decode [] "zz".data = .error "invalid hex key" ∧
    (Except.error "invalid hex key" : Except String (List Byte)) ≠
      .error "ciphertext too short" := by
  decide

/-- C7 (amended): for every key accepted by the key-decoding stage (valid
hex of an AES key length), Decode fails with the "ciphertext too short"
(Truncated) error on every blob shorter than one nonce length (12
bytes), and on blobs of at least one nonce length it splits off exactly
the first 12 bytes as the nonce and opens the remainder; for keys
rejected earlier, Decode fails with the key error instead. -/
theorem decode_truncation_guard (blob : List Byte) (key : List Char)
    (keyBytes : List Byte) (hkey : hexDecode key = some keyBytes)
    (hok : aesKeyOk keyBytes = true) :
    (blob.length < nonceSize →
      Decode blob key = .error "ciphertext too short") ∧
    (nonceSize ≤ blob.length →
      Decode blob key =
        match gcmOpen keyBytes (blob.take nonceSize) (blob.drop nonceSize) with
        | some pt => .ok pt
        | none => .error "could not decrypt") := by
  constructor
  · intro h
    unfold Decode
    rw [hkey]
    simp [hok, h]
  · intro h
    unfold Decode
    rw [hkey]
    simp only [hok, if_true]
    rw [if_neg (by omega)]

/-- Witness for C7's amended theorem at a 3-byte and a 12-byte blob. -/
theorem decode_truncation_guard_witness :
    Decode [1, 2, 3] "46da5d3577209271242b42882a034c3d".data =
      .error "ciphertext too short" ∧
    Decode (List.replicate 12 0) "46da5d3577209271242b42882a034c3d".data =
      .error "could not decrypt" :=
  ⟨(decode_truncation_guard [1, 2, 3]
      "46da5d3577209271242b42882a034c3d".data testKeyBytes (by decide)
      (by decide)).1 (by decide),
   by
    rw [(decode_truncation_guard (List.replicate 12 0)
      "46da5d3577209271242b42882a034c3d".data testKeyBytes (by decide)
      (by decide)).2 (by decide)]
    decide⟩

/-- C8: key generation over 16 random bytes always yields a 32-character
string over the lowercase hex alphabet that decodes back to exactly the
original 16 bytes — a fixed-length text-safe token for a 128-bit key. -/
theorem generate_key_format (randomBytes : List Byte)
    (hlen : randomBytes.length = 16) (hrange : ∀ b ∈ randomBytes, b < 256) :
    (GenerateRandomHexKey randomBytes).length = 32 ∧
    (∀ c ∈ GenerateRandomHexKey randomBytes, c ∈ "0123456789abcdef".data) ∧
    hexDecode (GenerateRandomHexKey randomBytes) = some randomBytes := by
  refine ⟨?_, hexEncode_mem randomBytes, hexDecode_hexEncode randomBytes hrange⟩
  simp [GenerateRandomHexKey, hexEncode_length, hlen]

/-- Witness for C8 at the concrete test key bytes. -/
theorem generate_key_format_witness :
    (GenerateRandomHexKey testKeyBytes).length = 32 ∧
    (∀ c ∈ GenerateRandomHexKey testKeyBytes, c ∈ "0123456789abcdef".data) ∧
    hexDecode (GenerateRandomHexKey testKeyBytes) = some testKeyBytes :=
  generate_key_format testKeyBytes (by decide) (by decide)

/-- C9: a retrieve request with an empty alias path parameter, or an
empty key path parameter, yields a 400 response naming the missing
parameter, and the handler makes no store call at all — neither Fetch
nor Delete. -/
theorem fetch_missing_params (a k : String) (store : FetchResult)
    (deleteErr : Option String) :
    (a = "" → fetchHandler a k store deleteErr =
      (⟨400, .errorResp "Alias parameter is missing"⟩, [])) ∧
    (a ≠ "" → k = "" → fetchHandler a k store deleteErr =
      (⟨400, .errorResp "Key parameter is missing"⟩, [])) := by
  constructor
  · intro h
    simp [fetchHandler, h]
  · intro ha hk
    simp [fetchHandler, ha, hk]

/-- Witness for C9 at a missing alias and a missing key. -/
theorem fetch_missing_params_witness :
    fetchHandler "" "k" ⟨none, none⟩ none =
      (⟨400, .errorResp "Alias parameter is missing"⟩, []) ∧
    fetchHandler "a" "" ⟨none, none⟩ none =
      (⟨400, .errorResp "Key parameter is missing"⟩, []) :=
  ⟨(fetch_missing_params "" "k" ⟨none, none⟩ none).1 rfl,
   (fetch_missing_params "a" "" ⟨none, none⟩ none).2 (by decide) rfl⟩

/-- C10: Encode succeeds exactly when the key is a valid hexadecimal
string decoding to 16, 24 or 32 bytes — 192- and 256-bit keys are
accepted alongside the generated 128-bit ones, and every other key
string (non-hex, or hex of any other decoded length) makes it fail. -/
theorem encode_key_acceptance (object : List Byte) (key : List Char)
    (nonce : List Byte) :
    (∃ sealed, Encode object key nonce = .ok sealed) ↔
    (∃ keyBytes, hexDecode key = some keyBytes ∧
      (keyBytes.length = 16 ∨ keyBytes.length = 24 ∨
       keyBytes.length = 32)) := by
  unfold Encode
  cases h : hexDecode key with
  | none => simp
  | some kb =>
    by_cases hok : aesKeyOk kb = true
    · simp only [hok, if_true]
      constructor
      · intro _
        exact ⟨kb, rfl, (aesKeyOk_iff kb).mp hok⟩
      · intro _
        exact ⟨nonce ++ gcmSeal kb nonce object, rfl⟩
    · simp only [if_neg hok]
      constructor
      · rintro ⟨s, hs⟩
        cases hs
      · rintro ⟨kb2, hkb2, hlen⟩
        injection hkb2 with hkb2
        subst hkb2
        exact absurd ((aesKeyOk_iff kb).mpr hlen) hok

end Yoopass
